import Mathlib

/-!
Verification of the IBF river-flood pipeline forecast core.

This file gives a shallow embedding, in Lean 4, of the parts of the
pipeline that the specification describes: the ensemble-to-likelihood
reduction and trigger derivation (`floodpipeline/forecast.py`,
`Forecast.__compute_triggers` and `Forecast.__compute_triggers_station`),
the alert classification (`classify_alert`), the event derivation and
publishing helpers (`floodpipeline/load.py`, `Load.send_to_ibf_api` and
`alert_class_to_threshold`), the empty-raster construction of the extent
builder, the affected-population aggregation, and the settings lookup
(`floodpipeline/settings.py`, `Settings.get_setting`).

Python floats are modelled as rationals, Python dicts as insertion-ordered
association lists with the usual replace-on-reassignment semantics, and
fallible Python code (uncaught KeyError / ValueError / TypeError) as
`Option` or `Except` results.
-/

namespace FloodPipeline

/-! ## Data model (floodpipeline/data.py)

`Threshold` and `FloodForecast` are the TypedDicts of data.py. -/

structure Threshold where
  return_period : ℚ
  threshold_value : ℚ
deriving DecidableEq, Repr

structure FloodForecast where
  return_period : ℚ
  likelihood : ℚ
deriving DecidableEq, Repr

/-! ## Python dict model

A Python dict is insertion ordered; assigning to an existing key keeps its
position and replaces the value, assigning to a new key appends. -/

def dictInsert {α β : Type} [DecidableEq α] (d : List (α × β)) (k : α) (v : β) :
    List (α × β) :=
  if d.any (fun p => decide (p.1 = k)) then
    d.map (fun p => if p.1 = k then (k, v) else p)
  else d ++ [(k, v)]

def dictLookup {α β : Type} [DecidableEq α] (d : List (α × β)) (k : α) : Option β :=
  (d.find? (fun p => decide (p.1 = k))).map (fun p => p.2)

/-! ## Likelihood reduction (forecast.py, lines 217-232 and 504-517)

`likelihood tv ensemble` is
`sum(map(lambda x: 1 if x > tv else 0, ensemble)) / len(ensemble)`:
the number of ensemble members strictly above the threshold value,
divided by the ensemble size. -/

def likelihood (tv : ℚ) (ensemble : List ℚ) : ℚ :=
  ((ensemble.filter (fun x => decide (tv < x))).length : ℚ) / (ensemble.length : ℚ)

/-- The `forecasts` list built in the per-unit loop: one `FloodForecast`
per threshold, in the order of the unit's threshold list. -/
def computeForecasts (thresholds : List Threshold) (ensemble : List ℚ) :
    List FloodForecast :=
  thresholds.map (fun t =>
    { return_period := t.return_period
      likelihood := likelihood t.threshold_value ensemble })

/-- The `likelihood_per_return_period` dict built in the per-unit loop. -/
def buildLprp (thresholds : List Threshold) (ensemble : List ℚ) : List (ℚ × ℚ) :=
  thresholds.foldl
    (fun d t => dictInsert d t.return_period (likelihood t.threshold_value ensemble))
    []

/-- `next((key for key, value in reversed(d.items()) if value >= p), 0.0)`:
the first entry of the reversed dict whose likelihood is at least `p`,
defaulting to `0.0`. -/
def nextReversedGE (lprp : List (ℚ × ℚ)) (p : ℚ) : ℚ :=
  match lprp.reverse.find? (fun kv => decide (p ≤ kv.2)) with
  | some kv => kv.1
  | none => 0

/-! ## Trigger derivation (forecast.py, lines 234-249 and 541-556) -/

structure TriggerResult where
  forecasts : List FloodForecast
  triggered : Bool
  return_period : ℚ
deriving DecidableEq, Repr

/-- The per-unit body of `Forecast.__compute_triggers` (identical in
`__compute_triggers_station`): likelihood reduction, the `triggered` flag,
and the exceeded return period.  `none` models the uncaught
KeyError/ValueError when `trigger-on-return-period` has no threshold. -/
def computeTriggers (thresholds : List Threshold) (ensemble : List ℚ)
    (trigger_rp trigger_min_prob : ℚ) (lead_time trigger_lead_time : ℤ) :
    Option TriggerResult :=
  let lprp := buildLprp thresholds ensemble
  match dictLookup lprp trigger_rp with
  | none => none
  | some l =>
    some { forecasts := computeForecasts thresholds ensemble
           triggered := decide (trigger_min_prob ≤ l) && decide (lead_time ≤ trigger_lead_time)
           return_period := nextReversedGE lprp trigger_min_prob }

/-! ## Helper lemmas on the dict model -/

theorem dictInsert_fresh {α β : Type} [DecidableEq α] (d : List (α × β)) (k : α) (v : β)
    (h : ∀ p ∈ d, p.1 ≠ k) : dictInsert d k v = d ++ [(k, v)] := by
  unfold dictInsert
  rw [if_neg]
  simp only [List.any_eq_true, decide_eq_true_eq, not_exists, not_and]
  exact fun p hp => h p hp

theorem buildLprp_go (ensemble : List ℚ) :
    ∀ (ts : List Threshold) (d : List (ℚ × ℚ)),
      (∀ t ∈ ts, ∀ p ∈ d, p.1 ≠ t.return_period) →
      (ts.map fun t => t.return_period).Nodup →
      ts.foldl
        (fun d t => dictInsert d t.return_period (likelihood t.threshold_value ensemble)) d
        = d ++ ts.map (fun t => (t.return_period, likelihood t.threshold_value ensemble))
  | [], d, _, _ => by simp
  | t :: ts, d, hd, hnd => by
    rw [List.foldl_cons,
      dictInsert_fresh d t.return_period _ (fun p hp => hd t (List.mem_cons_self t ts) p hp)]
    rw [List.map_cons, List.nodup_cons] at hnd
    rw [buildLprp_go ensemble ts (d ++ [(t.return_period, likelihood t.threshold_value ensemble)])
      ?_ hnd.2]
    · simp
    · intro t' ht' p hp
      rcases List.mem_append.mp hp with hpd | hpt
      · exact hd t' (List.mem_cons_of_mem t ht') p hpd
      · rcases List.mem_singleton.mp hpt with rfl
        intro hcontra
        exact hnd.1 (by
          rw [show t.return_period = t'.return_period from hcontra]
          exact List.mem_map_of_mem (fun t => t.return_period) ht')

theorem buildLprp_eq_map (thresholds : List Threshold) (ensemble : List ℚ)
    (hnd : (thresholds.map fun t => t.return_period).Nodup) :
    buildLprp thresholds ensemble
      = thresholds.map (fun t => (t.return_period, likelihood t.threshold_value ensemble)) := by
  unfold buildLprp
  rw [buildLprp_go ensemble thresholds [] (by simp) hnd]
  simp

theorem dictLookup_buildLprp (thresholds : List Threshold) (ensemble : List ℚ)
    (rp tv : ℚ)
    (hnd : (thresholds.map fun t => t.return_period).Nodup)
    (hmem : (⟨rp, tv⟩ : Threshold) ∈ thresholds) :
    dictLookup (buildLprp thresholds ensemble) rp = some (likelihood tv ensemble) := by
  rw [buildLprp_eq_map thresholds ensemble hnd]
  induction thresholds with
  | nil => cases hmem
  | cons t ts ih =>
    rw [List.map_cons, List.nodup_cons] at hnd
    rcases List.mem_cons.mp hmem with rfl | hts
    · simp [dictLookup, List.find?]
    · have hne : t.return_period ≠ rp := by
        intro hcontra
        exact hnd.1 (hcontra ▸ List.mem_map_of_mem (fun t => t.return_period) hts)
      unfold dictLookup at ih ⊢
      rw [List.map_cons, List.find?_cons_of_neg _ (by simpa using hne)]
      exact ih hnd.2 hts

/-- `nextReversedGE` computes the largest key whose value is at least `p`
(or `0` when there is none), provided the keys are strictly ascending. -/
theorem nextReversedGE_spec (lprp : List (ℚ × ℚ)) (p : ℚ)
    (hs : lprp.Pairwise (fun a b => a.1 < b.1)) :
    (∀ kv ∈ lprp, p ≤ kv.2 → kv.1 ≤ nextReversedGE lprp p)
    ∧ ((∃ kv ∈ lprp, p ≤ kv.2) →
        ∃ kv ∈ lprp, nextReversedGE lprp p = kv.1 ∧ p ≤ kv.2)
    ∧ ((∀ kv ∈ lprp, ¬ p ≤ kv.2) → nextReversedGE lprp p = 0) := by
  unfold nextReversedGE
  cases hfind : lprp.reverse.find? (fun kv => decide (p ≤ kv.2)) with
  | none =>
    rw [List.find?_eq_none] at hfind
    have hnone : ∀ kv ∈ lprp, ¬ p ≤ kv.2 := by
      intro kv hkv
      have := hfind kv (List.mem_reverse.mpr hkv)
      simpa using this
    refine ⟨?_, ?_, ?_⟩
    · intro kv hkv hp
      exact absurd hp (hnone kv hkv)
    · rintro ⟨kv, hkv, hp⟩
      exact absurd hp (hnone kv hkv)
    · intro _
      rfl
  | some kv =>
    rw [List.find?_eq_some] at hfind
    obtain ⟨hkvp, as, bs, hsplit, has⟩ := hfind
    have hkvp' : p ≤ kv.2 := by simpa using hkvp
    have hkvmem : kv ∈ lprp := by
      rw [← List.mem_reverse, hsplit]
      exact List.mem_append.mpr (Or.inr (List.mem_cons_self kv bs))
    have hrev : lprp.reverse.Pairwise (fun a b => b.1 < a.1) :=
      List.pairwise_reverse.mpr hs
    rw [hsplit, List.pairwise_append] at hrev
    have hbs : ∀ b ∈ bs, b.1 < kv.1 := by
      have := hrev.2.1
      rw [List.pairwise_cons] at this
      exact this.1
    refine ⟨?_, ?_, ?_⟩
    · intro x hx hpx
      have hxrev : x ∈ as ++ kv :: bs := by
        rw [← hsplit]
        exact List.mem_reverse.mpr hx
      rcases List.mem_append.mp hxrev with hxa | hxkv
      · have := has x hxa
        simp at this
        exact absurd hpx (not_le.mpr this)
      · rcases List.mem_cons.mp hxkv with rfl | hxbs
        · exact le_refl _
        · exact le_of_lt (hbs x hxbs)
    · intro _
      exact ⟨kv, hkvmem, rfl, hkvp'⟩
    · intro hnone
      exact absurd hkvp' (hnone kv hkvmem)

theorem rp_keys_nodup (thresholds : List Threshold)
    (hsorted : thresholds.Pairwise fun a b => a.return_period < b.return_period) :
    (thresholds.map fun t => t.return_period).Nodup := by
  rw [List.nodup_iff_sublist]
  intro a h
  have := List.pairwise_map.mpr hsorted
  have h2 := this.sublist h
  rw [List.pairwise_cons] at h2
  exact lt_irrefl a (h2.1 a (List.mem_singleton.mpr rfl))

/-! ## Claim C1 -/

/-- C1: for every data unit (admin or station), every threshold with return
period `rp`, and every ensemble of positive length `E`, the computed
likelihood for `rp` is the number of members strictly greater than the
threshold value divided by `E` (members equal to the threshold do not
count), and the `FloodForecast` list is ordered by return period in the
same ascending order as the unit's threshold list. -/
theorem likelihood_reduction_spec (thresholds : List Threshold) (ensemble : List ℚ)
    (hE : 0 < ensemble.length)
    (hsorted : thresholds.Pairwise fun a b => a.return_period < b.return_period) :
    ((computeForecasts thresholds ensemble).map FloodForecast.return_period
        = thresholds.map Threshold.return_period)
    ∧ (∀ f ∈ computeForecasts thresholds ensemble, ∃ t ∈ thresholds,
        f.return_period = t.return_period ∧
        f.likelihood = (ensemble.countP (fun x => decide (t.threshold_value < x)) : ℚ)
            / (ensemble.length : ℚ))
    ∧ (computeForecasts thresholds ensemble).Pairwise
        (fun a b => a.return_period < b.return_period) := by
  refine ⟨?_, ?_, ?_⟩
  · simp [computeForecasts, List.map_map]
  · intro f hf
    rw [computeForecasts, List.mem_map] at hf
    obtain ⟨t, ht, rfl⟩ := hf
    refine ⟨t, ht, rfl, ?_⟩
    simp [likelihood, List.countP_eq_length_filter]
  · exact List.pairwise_map.mpr hsorted

/-- Witness for C1: a concrete unit with thresholds at return periods 2 and
5 and a three-member ensemble. -/
theorem likelihood_reduction_spec_witness :
    ((computeForecasts [⟨2, 10⟩, ⟨5, 20⟩] [(5 : ℚ), 10, 25]).map FloodForecast.return_period
        = [⟨2, 10⟩, ⟨5, 20⟩].map Threshold.return_period)
    ∧ (∀ f ∈ computeForecasts [⟨2, 10⟩, ⟨5, 20⟩] [(5 : ℚ), 10, 25],
        ∃ t ∈ ([⟨2, 10⟩, ⟨5, 20⟩] : List Threshold),
        f.return_period = t.return_period ∧
        f.likelihood = (([(5 : ℚ), 10, 25].countP (fun x => decide (t.threshold_value < x))) : ℚ)
            / (([(5 : ℚ), 10, 25].length : ℚ)))
    ∧ (computeForecasts [⟨2, 10⟩, ⟨5, 20⟩] [(5 : ℚ), 10, 25]).Pairwise
        (fun a b => a.return_period < b.return_period) :=
  likelihood_reduction_spec [⟨2, 10⟩, ⟨5, 20⟩] [(5 : ℚ), 10, 25]
    (by norm_num)
    (by simp [List.pairwise_cons]; norm_num)

/-! ## Claim C2 -/

/-- C2: under the preconditions that the unit's thresholds are sorted
strictly ascending by return period and that the configured trigger return
period occurs among them (with threshold value `tv`), the computed
`triggered` flag holds iff the likelihood at the trigger return period is
at least `trigger_min_prob` and the lead time is within
`trigger_lead_time`; and the computed `return_period` is the largest
return period whose likelihood is at least `trigger_min_prob`, or `0.0`
when there is none. -/
theorem trigger_derivation_spec (thresholds : List Threshold) (ensemble : List ℚ)
    (trigger_rp p tv : ℚ) (lead_time tlt : ℤ)
    (hsorted : thresholds.Pairwise fun a b => a.return_period < b.return_period)
    (hmem : (⟨trigger_rp, tv⟩ : Threshold) ∈ thresholds) :
    ∃ r : TriggerResult,
      computeTriggers thresholds ensemble trigger_rp p lead_time tlt = some r
      ∧ (r.triggered = true ↔ (p ≤ likelihood tv ensemble ∧ lead_time ≤ tlt))
      ∧ (∀ t ∈ thresholds, p ≤ likelihood t.threshold_value ensemble →
            t.return_period ≤ r.return_period)
      ∧ ((∃ t ∈ thresholds, p ≤ likelihood t.threshold_value ensemble) →
            ∃ t ∈ thresholds, r.return_period = t.return_period
              ∧ p ≤ likelihood t.threshold_value ensemble)
      ∧ ((∀ t ∈ thresholds, ¬ p ≤ likelihood t.threshold_value ensemble) →
            r.return_period = 0) := by
  have hnd := rp_keys_nodup thresholds hsorted
  have hlk := dictLookup_buildLprp thresholds ensemble trigger_rp tv hnd hmem
  have hkeys : (buildLprp thresholds ensemble).Pairwise (fun a b => a.1 < b.1) := by
    rw [buildLprp_eq_map thresholds ensemble hnd]
    exact List.pairwise_map.mpr hsorted
  have hspec := nextReversedGE_spec (buildLprp thresholds ensemble) p hkeys
  refine ⟨{ forecasts := computeForecasts thresholds ensemble
            triggered := decide (p ≤ likelihood tv ensemble)
              && decide (lead_time ≤ tlt)
            return_period := nextReversedGE (buildLprp thresholds ensemble) p },
    ?_, ?_, ?_, ?_, ?_⟩
  · simp only [computeTriggers, hlk]
  · simp [Bool.and_eq_true, decide_eq_true_eq]
  · intro t ht hp
    exact hspec.1 (t.return_period, likelihood t.threshold_value ensemble)
      (by rw [buildLprp_eq_map thresholds ensemble hnd]
          exact List.mem_map_of_mem _ ht) hp
  · rintro ⟨t, ht, hp⟩
    obtain ⟨kv, hkv, heq, hple⟩ := hspec.2.1
      ⟨(t.return_period, likelihood t.threshold_value ensemble),
        by rw [buildLprp_eq_map thresholds ensemble hnd]
           exact List.mem_map_of_mem _ ht, hp⟩
    rw [buildLprp_eq_map thresholds ensemble hnd, List.mem_map] at hkv
    obtain ⟨t', ht', rfl⟩ := hkv
    exact ⟨t', ht', heq, hple⟩
  · intro hnone
    apply hspec.2.2
    intro kv hkv
    rw [buildLprp_eq_map thresholds ensemble hnd, List.mem_map] at hkv
    obtain ⟨t', ht', rfl⟩ := hkv
    exact hnone t' ht'

/-- Witness for C2: concrete unit with thresholds at return periods 2 and
5, all five ensemble members above both thresholds, trigger on return
period 5 with minimum probability 1/2, lead time 3 within the trigger lead
time 3. -/
theorem trigger_derivation_spec_witness :
    ∃ r : TriggerResult,
      computeTriggers [⟨2, 10⟩, ⟨5, 20⟩] [(25 : ℚ), 25, 25, 25, 25] 5 (1/2) 3 3 = some r
      ∧ (r.triggered = true ↔ ((1/2 : ℚ) ≤ likelihood 20 [(25 : ℚ), 25, 25, 25, 25] ∧ (3 : ℤ) ≤ 3))
      ∧ (∀ t ∈ ([⟨2, 10⟩, ⟨5, 20⟩] : List Threshold),
            (1/2 : ℚ) ≤ likelihood t.threshold_value [(25 : ℚ), 25, 25, 25, 25] →
            t.return_period ≤ r.return_period)
      ∧ ((∃ t ∈ ([⟨2, 10⟩, ⟨5, 20⟩] : List Threshold),
            (1/2 : ℚ) ≤ likelihood t.threshold_value [(25 : ℚ), 25, 25, 25, 25]) →
            ∃ t ∈ ([⟨2, 10⟩, ⟨5, 20⟩] : List Threshold),
              r.return_period = t.return_period
              ∧ (1/2 : ℚ) ≤ likelihood t.threshold_value [(25 : ℚ), 25, 25, 25, 25])
      ∧ ((∀ t ∈ ([⟨2, 10⟩, ⟨5, 20⟩] : List Threshold),
            ¬ (1/2 : ℚ) ≤ likelihood t.threshold_value [(25 : ℚ), 25, 25, 25, 25]) →
            r.return_period = 0) :=
  trigger_derivation_spec [⟨2, 10⟩, ⟨5, 20⟩] [(25 : ℚ), 25, 25, 25, 25] 5 (1/2) 20 3 3
    (by simp [List.pairwise_cons]; norm_num)
    (by simp)

/-! ## Claim C7 -/

theorem likelihood_antitone (ensemble : List ℚ) {v w : ℚ} (h : v ≤ w) :
    likelihood w ensemble ≤ likelihood v ensemble := by
  unfold likelihood
  have hsub : List.Sublist (ensemble.filter (fun x => decide (w < x)))
      (ensemble.filter (fun x => decide (v < x))) := by
    apply List.monotone_filter_right
    intro a ha
    simp only [decide_eq_true_eq] at ha ⊢
    exact lt_of_le_of_lt h ha
  have hlen : ((ensemble.filter (fun x => decide (w < x))).length : ℚ)
      ≤ ((ensemble.filter (fun x => decide (v < x))).length : ℚ) := by
    exact_mod_cast hsub.length_le
  rcases Nat.eq_zero_or_pos ensemble.length with h0 | hpos
  · simp [h0]
  · have hposq : (0 : ℚ) < (ensemble.length : ℚ) := by exact_mod_cast hpos
    exact (div_le_div_iff_of_pos_right hposq).mpr hlen

/-- C7: for every forecast data unit, under the precondition that the
thresholds are sorted with strictly increasing return periods and strictly
increasing threshold values, the forecasts list is sorted ascending by
return period and its likelihoods are non-increasing along that order. -/
theorem forecasts_sorted_antitone (thresholds : List Threshold) (ensemble : List ℚ)
    (hsorted : thresholds.Pairwise fun a b =>
        a.return_period < b.return_period ∧ a.threshold_value < b.threshold_value) :
    (computeForecasts thresholds ensemble).Pairwise
        (fun a b => a.return_period ≤ b.return_period)
    ∧ (computeForecasts thresholds ensemble).Pairwise
        (fun a b => b.likelihood ≤ a.likelihood) := by
  constructor
  · apply List.pairwise_map.mpr
    exact hsorted.imp (fun h => le_of_lt h.1)
  · apply List.pairwise_map.mpr
    exact hsorted.imp (fun h => likelihood_antitone ensemble (le_of_lt h.2))

/-- Witness for C7: concrete strictly increasing thresholds. -/
theorem forecasts_sorted_antitone_witness :
    (computeForecasts [⟨2, 10⟩, ⟨5, 20⟩] [(15 : ℚ), 25, 3]).Pairwise
        (fun a b => a.return_period ≤ b.return_period)
    ∧ (computeForecasts [⟨2, 10⟩, ⟨5, 20⟩] [(15 : ℚ), 25, 3]).Pairwise
        (fun a b => b.likelihood ≤ a.likelihood) :=
  forecasts_sorted_antitone [⟨2, 10⟩, ⟨5, 20⟩] [(15 : ℚ), 25, 3]
    (by simp [List.pairwise_cons]; norm_num)

/-! ## Alert classification (forecast.py, `classify_alert`, lines 62-124)

`alert_class` strings are modelled by a closed enum; the Python parameters
`alert_on_return_period` / `alert_on_minimum_probability`, which are
either a float or a dict, are modelled by `PolicyParam`.  The Python
`sorted(d.items(), key=lambda item: item[1])` is a stable sort by value;
`List.insertionSort` with the non-strict value order is stable, hence
extensionally identical.  Uncaught ValueError / KeyError / TypeError /
AttributeError are modelled as `Except.error`. -/

inductive AlertClass where
  | no
  | min
  | med
  | max
deriving DecidableEq, Repr

/-- The total order `no < min < med < max` on alert classes. -/
def AlertClass.rank : AlertClass → Nat
  | .no => 0
  | .min => 1
  | .med => 2
  | .max => 3

inductive PolicyParam where
  | scalar (q : ℚ)
  | table (m : List (AlertClass × ℚ))
deriving DecidableEq, Repr

inductive ClassifyOn where
  | returnPeriod
  | probability
  | disable
deriving DecidableEq, Repr

def sortByValue (m : List (AlertClass × ℚ)) : List (AlertClass × ℚ) :=
  List.insertionSort (fun a b => a.2 ≤ b.2) m

/-- The return-period-mode loop:
`for class_, return_period in aorp.items(): if lprp[return_period] >= aomp: alert_class = class_`.
A missing return period is an uncaught KeyError; a dict-valued
`alert_on_minimum_probability` is an uncaught TypeError on `>=`. -/
def walkRP (lprp : List (ℚ × ℚ)) (aomp : PolicyParam) :
    List (AlertClass × ℚ) → AlertClass → Except String AlertClass
  | [], acc => .ok acc
  | cr :: rest, acc =>
    match dictLookup lprp cr.2 with
    | none => .error "KeyError"
    | some l =>
      match aomp with
      | .scalar minProb => walkRP lprp aomp rest (if minProb ≤ l then cr.1 else acc)
      | .table _ => .error "TypeError"

/-- The probability-mode loop:
`for class_, min_prob in aomp.items(): if lprp[aorp] >= min_prob: alert_class = class_`. -/
def walkProb (lprp : List (ℚ × ℚ)) (aorp : PolicyParam) :
    List (AlertClass × ℚ) → AlertClass → Except String AlertClass
  | [], acc => .ok acc
  | cr :: rest, acc =>
    match aorp with
    | .scalar rp =>
      match dictLookup lprp rp with
      | none => .error "KeyError"
      | some l => walkProb lprp aorp rest (if cr.2 ≤ l then cr.1 else acc)
    | .table _ => .error "TypeError"

/-- `max(d, key=d.get)`: the first key attaining the maximal value;
ValueError on an empty dict. -/
def dictArgmax (m : List (AlertClass × ℚ)) : Except String AlertClass :=
  match m with
  | [] => .error "ValueError"
  | x :: rest => .ok (rest.foldl (fun best y => if best.2 < y.2 then y else best) x).1

/-- `classify_alert` of forecast.py.  The `triggered` string/bool and the
mode string are typed; everything else follows the source line by line. -/
def classify_alert (triggered : Bool) (lprp : List (ℚ × ℚ)) (mode : ClassifyOn)
    (aorp aomp : PolicyParam) : Except String AlertClass :=
  match mode with
  | .returnPeriod =>
    match aorp with
    | .scalar _ => .error "ValueError"
    | .table m => walkRP lprp aomp (sortByValue m) AlertClass.no
  | .probability =>
    match aomp with
    | .scalar _ => .error "ValueError"
    | .table m => walkProb lprp aorp (sortByValue m) AlertClass.no
  | .disable =>
    if triggered then
      match aorp with
      | .table m => dictArgmax m
      | .scalar _ =>
        match aomp with
        | .table m => dictArgmax m
        | .scalar _ => .ok AlertClass.no
    else .ok AlertClass.no

/-- Criterion of return-period mode for one table row, as the spec words
it: `likelihood_per_rp[alert_on_rp[class]] >= alert_min_prob`. -/
def critRP (lprp : List (ℚ × ℚ)) (minProb : ℚ) (cr : AlertClass × ℚ) : Bool :=
  match dictLookup lprp cr.2 with
  | some l => decide (minProb ≤ l)
  | none => false

/-- Spec-side definition, following the spec's words only: the highest
class in the order `no < min < med < max` whose criterion is met, `no`
when none is. -/
def specHighestMetClass (lprp : List (ℚ × ℚ)) (m : List (AlertClass × ℚ))
    (minProb : ℚ) : AlertClass :=
  (m.filter (critRP lprp minProb)).foldl
    (fun best cr => if best.rank < cr.1.rank then cr.1 else best) AlertClass.no

/-- The pure content of both walk loops: keep the class of the last row
whose criterion is met. -/
def lastMet (crit : AlertClass × ℚ → Bool) :
    List (AlertClass × ℚ) → AlertClass → AlertClass
  | [], acc => acc
  | cr :: rest, acc => lastMet crit rest (if crit cr then cr.1 else acc)

theorem walkRP_eq_lastMet (lprp : List (ℚ × ℚ)) (minProb : ℚ) :
    ∀ (ms : List (AlertClass × ℚ)) (acc : AlertClass),
      (∀ cr ∈ ms, (dictLookup lprp cr.2).isSome = true) →
      walkRP lprp (.scalar minProb) ms acc
        = .ok (lastMet (critRP lprp minProb) ms acc)
  | [], acc, _ => rfl
  | cr :: rest, acc, h => by
    have hcr := h cr (List.mem_cons_self cr rest)
    cases hlk : dictLookup lprp cr.2 with
    | none => rw [hlk] at hcr; simp at hcr
    | some l =>
      unfold walkRP lastMet
      rw [hlk]
      simp only [critRP, hlk]
      rw [walkRP_eq_lastMet lprp minProb rest _
        (fun c hc => h c (List.mem_cons_of_mem cr hc))]
      by_cases hle : minProb ≤ l
      · simp [hle]
      · simp [hle]

theorem walkProb_eq_lastMet (lprp : List (ℚ × ℚ)) (rp l : ℚ)
    (hl : dictLookup lprp rp = some l) :
    ∀ (ms : List (AlertClass × ℚ)) (acc : AlertClass),
      walkProb lprp (.scalar rp) ms acc
        = .ok (lastMet (fun cr => decide (cr.2 ≤ l)) ms acc)
  | [], acc => rfl
  | cr :: rest, acc => by
    simp only [walkProb, hl, lastMet]
    rw [walkProb_eq_lastMet lprp rp l hl rest]
    by_cases hle : cr.2 ≤ l
    · simp [hle]
    · simp [hle]

/-- Characterization of `lastMet` when the table rows are strictly
ascending in class order: the result is the highest met class (bounded
below by every met row), the accumulator when nothing is met. -/
theorem lastMet_spec (crit : AlertClass × ℚ → Bool) :
    ∀ (ms : List (AlertClass × ℚ)) (acc : AlertClass),
      ms.Pairwise (fun a b => a.1.rank < b.1.rank) →
      (∀ cr ∈ ms, acc.rank < cr.1.rank) →
      ((∀ cr ∈ ms, crit cr = false) → lastMet crit ms acc = acc)
      ∧ (∀ cr ∈ ms, crit cr = true → cr.1.rank ≤ (lastMet crit ms acc).rank)
      ∧ ((∃ cr ∈ ms, crit cr = true) →
          ∃ cr ∈ ms, crit cr = true ∧ lastMet crit ms acc = cr.1)
  | [], acc, _, _ => by
    refine ⟨fun _ => rfl, by simp, by simp⟩
  | cr :: rest, acc, hsorted, hacc => by
    rw [List.pairwise_cons] at hsorted
    by_cases hc : crit cr = true
    · have ih := lastMet_spec crit rest cr.1 hsorted.2 hsorted.1
      have hstep : lastMet crit (cr :: rest) acc = lastMet crit rest cr.1 := by
        simp [lastMet, hc]
      have hself : ∃ y ∈ cr :: rest, crit y = true
          ∧ lastMet crit (cr :: rest) acc = y.1 := by
        by_cases hrest : ∀ x ∈ rest, crit x = false
        · refine ⟨cr, List.mem_cons_self cr rest, hc, ?_⟩
          rw [hstep, ih.1 hrest]
        · push_neg at hrest
          obtain ⟨x, hx, hcx⟩ := hrest
          have hcx' : crit x = true := by
            cases h : crit x
            · exact absurd h hcx
            · rfl
          obtain ⟨y, hy, hcy, hres⟩ := ih.2.2 ⟨x, hx, hcx'⟩
          exact ⟨y, List.mem_cons_of_mem cr hy, hcy, hstep ▸ hres⟩
      refine ⟨?_, ?_, ?_⟩
      · intro hall
        exact absurd hc (by simp [hall cr (List.mem_cons_self cr rest)])
      · intro x hx hcx
        rcases List.mem_cons.mp hx with rfl | hxr
        · obtain ⟨y, hy, _, hres⟩ := hself
          rw [hres]
          rcases List.mem_cons.mp hy with rfl | hyr
          · exact le_refl _
          · exact le_of_lt (hsorted.1 y hyr)
        · rw [hstep]
          exact ih.2.1 x hxr hcx
      · intro _
        exact hself
    · have hcf : crit cr = false := by
        cases h : crit cr
        · rfl
        · exact absurd h hc
      have ih := lastMet_spec crit rest acc hsorted.2
        (fun x hx => hacc x (List.mem_cons_of_mem cr hx))
      have hstep : lastMet crit (cr :: rest) acc = lastMet crit rest acc := by
        simp [lastMet, hcf]
      refine ⟨?_, ?_, ?_⟩
      · intro hall
        rw [hstep]
        exact ih.1 (fun x hx => hall x (List.mem_cons_of_mem cr hx))
      · intro x hx hcx
        rcases List.mem_cons.mp hx with rfl | hxr
        · exact absurd hcx (by simp [hcf])
        · rw [hstep]
          exact ih.2.1 x hxr hcx
      · rintro ⟨x, hx, hcx⟩
        rcases List.mem_cons.mp hx with rfl | hxr
        · exact absurd hcx (by simp [hcf])
        · rw [hstep]
          obtain ⟨y, hy, hcy, hres⟩ := ih.2.2 ⟨x, hxr, hcx⟩
          exact ⟨y, List.mem_cons_of_mem cr hy, hcy, hres⟩

/-! ## Claim C3 -/

theorem rank_pos_of_ne_no (c : AlertClass) (h : c ≠ AlertClass.no) : 0 < c.rank := by
  cases c
  · exact absurd rfl h
  · decide
  · decide
  · decide

/-- C3 counterexample: with the likelihood table `{10: 1.0, 20: 1.0}`, the
return-period policy table `{min: 20, med: 10}` and minimum probability
`0.5`, both criteria are met, yet `classify_alert` returns `min` (the
class with the largest configured return period) while the highest class
whose criterion is met is `med`.  The claim, as stated for every
likelihood table and policy, is therefore false. -/
theorem classify_alert_not_highest_class :
    classify_alert false [((10 : ℚ), (1 : ℚ)), (20, 1)] ClassifyOn.returnPeriod
        (PolicyParam.table [(AlertClass.min, 20), (AlertClass.med, 10)])
        (PolicyParam.scalar (1/2))
      = Except.ok AlertClass.min
    ∧ critRP [((10 : ℚ), (1 : ℚ)), (20, 1)] (1/2) (AlertClass.med, 10) = true
    ∧ specHighestMetClass [((10 : ℚ), (1 : ℚ)), (20, 1)]
        [(AlertClass.min, 20), (AlertClass.med, 10)] (1/2) = AlertClass.med
    ∧ AlertClass.min ≠ AlertClass.med := by
  refine ⟨?_, ?_, ?_, by decide⟩
  · norm_num [classify_alert, sortByValue, List.insertionSort, List.orderedInsert,
      walkRP, dictLookup, List.find?]
  · norm_num [critRP, dictLookup, List.find?]
  · norm_num [specHighestMetClass, critRP, dictLookup, List.find?, List.filter,
      AlertClass.rank]

/-- C3 amended: when the policy table is monotone — classes strictly
ascending in the order `no < min < med < max` with their configured values
(return periods, resp. minimum probabilities) ascending alongside — and no
row is labelled `no`, `classify_alert` returns the highest class whose
criterion is met, and `no` exactly when no criterion is met; in
return-period mode provided every configured return period is present in
the likelihood table, in probability mode provided the configured return
period is. -/
theorem classify_alert_monotone_policy (triggered : Bool) (lprp : List (ℚ × ℚ))
    (m : List (AlertClass × ℚ)) (minProb : ℚ)
    (hmono : m.Pairwise (fun a b => a.1.rank < b.1.rank ∧ a.2 ≤ b.2))
    (hno : ∀ cr ∈ m, cr.1 ≠ AlertClass.no) :
    ((∀ cr ∈ m, (dictLookup lprp cr.2).isSome = true) →
      ∃ c : AlertClass,
        classify_alert triggered lprp ClassifyOn.returnPeriod
            (PolicyParam.table m) (PolicyParam.scalar minProb) = Except.ok c
        ∧ (∀ cr ∈ m, critRP lprp minProb cr = true → cr.1.rank ≤ c.rank)
        ∧ ((∃ cr ∈ m, critRP lprp minProb cr = true) →
            ∃ cr ∈ m, critRP lprp minProb cr = true ∧ c = cr.1)
        ∧ (c = AlertClass.no ↔ ∀ cr ∈ m, critRP lprp minProb cr = false))
    ∧ (∀ rp l, dictLookup lprp rp = some l →
      ∃ c : AlertClass,
        classify_alert triggered lprp ClassifyOn.probability
            (PolicyParam.scalar rp) (PolicyParam.table m) = Except.ok c
        ∧ (∀ cr ∈ m, cr.2 ≤ l → cr.1.rank ≤ c.rank)
        ∧ ((∃ cr ∈ m, cr.2 ≤ l) → ∃ cr ∈ m, cr.2 ≤ l ∧ c = cr.1)
        ∧ (c = AlertClass.no ↔ ∀ cr ∈ m, ¬ cr.2 ≤ l)) := by
  have hsortval : List.Sorted (fun a b : AlertClass × ℚ => a.2 ≤ b.2) m :=
    hmono.imp (fun h => h.2)
  have hsorteq : sortByValue m = m := hsortval.insertionSort_eq
  have hrank : m.Pairwise (fun a b => a.1.rank < b.1.rank) :=
    hmono.imp (fun h => h.1)
  have hacc : ∀ cr ∈ m, AlertClass.no.rank < cr.1.rank := by
    intro cr hcr
    exact rank_pos_of_ne_no cr.1 (hno cr hcr)
  constructor
  · intro hlk
    have hwalk := walkRP_eq_lastMet lprp minProb m AlertClass.no hlk
    have hspec := lastMet_spec (critRP lprp minProb) m AlertClass.no hrank hacc
    refine ⟨lastMet (critRP lprp minProb) m AlertClass.no, ?_, hspec.2.1, hspec.2.2, ?_, ?_⟩
    · simp only [classify_alert, hsorteq, hwalk]
    · intro hcno cr hcr
      cases hccr : critRP lprp minProb cr with
      | false => rfl
      | true =>
        obtain ⟨y, hy, _, hres⟩ := hspec.2.2 ⟨cr, hcr, hccr⟩
        exact absurd (hres ▸ hcno : y.1 = AlertClass.no) (hno y hy)
    · intro hall
      exact hspec.1 hall
  · intro rp l hl
    have hwalk := walkProb_eq_lastMet lprp rp l hl m AlertClass.no
    have hspec := lastMet_spec (fun cr => decide (cr.2 ≤ l)) m AlertClass.no hrank hacc
    refine ⟨lastMet (fun cr => decide (cr.2 ≤ l)) m AlertClass.no, ?_, ?_, ?_, ?_, ?_⟩
    · simp only [classify_alert, hsorteq, hwalk]
    · intro cr hcr hle
      exact hspec.2.1 cr hcr (decide_eq_true hle)
    · rintro ⟨cr, hcr, hle⟩
      obtain ⟨y, hy, hcy, hres⟩ := hspec.2.2 ⟨cr, hcr, decide_eq_true hle⟩
      exact ⟨y, hy, of_decide_eq_true hcy, hres⟩
    · intro hcno cr hcr
      by_cases hle : cr.2 ≤ l
      · obtain ⟨y, hy, _, hres⟩ := hspec.2.2 ⟨cr, hcr, decide_eq_true hle⟩
        exact absurd (hres ▸ hcno : y.1 = AlertClass.no) (hno y hy)
      · exact hle
    · intro hall
      apply hspec.1
      intro cr hcr
      simpa using hall cr hcr

/-- Witness for the amended C3: a monotone policy table `{min: 2, med: 5}`
over the likelihood table `{2: 1.0, 5: 1.0}`. -/
theorem classify_alert_monotone_policy_witness :
    ((∀ cr ∈ [(AlertClass.min, (2 : ℚ)), (AlertClass.med, 5)],
        (dictLookup [((2 : ℚ), (1 : ℚ)), (5, 1)] cr.2).isSome = true) →
      ∃ c : AlertClass,
        classify_alert false [((2 : ℚ), (1 : ℚ)), (5, 1)] ClassifyOn.returnPeriod
            (PolicyParam.table [(AlertClass.min, 2), (AlertClass.med, 5)])
            (PolicyParam.scalar (1/2)) = Except.ok c
        ∧ (∀ cr ∈ [(AlertClass.min, (2 : ℚ)), (AlertClass.med, 5)],
            critRP [((2 : ℚ), (1 : ℚ)), (5, 1)] (1/2) cr = true → cr.1.rank ≤ c.rank)
        ∧ ((∃ cr ∈ [(AlertClass.min, (2 : ℚ)), (AlertClass.med, 5)],
            critRP [((2 : ℚ), (1 : ℚ)), (5, 1)] (1/2) cr = true) →
            ∃ cr ∈ [(AlertClass.min, (2 : ℚ)), (AlertClass.med, 5)],
              critRP [((2 : ℚ), (1 : ℚ)), (5, 1)] (1/2) cr = true ∧ c = cr.1)
        ∧ (c = AlertClass.no ↔ ∀ cr ∈ [(AlertClass.min, (2 : ℚ)), (AlertClass.med, 5)],
            critRP [((2 : ℚ), (1 : ℚ)), (5, 1)] (1/2) cr = false))
    ∧ (∀ rp l, dictLookup [((2 : ℚ), (1 : ℚ)), (5, 1)] rp = some l →
      ∃ c : AlertClass,
        classify_alert false [((2 : ℚ), (1 : ℚ)), (5, 1)] ClassifyOn.probability
            (PolicyParam.scalar rp)
            (PolicyParam.table [(AlertClass.min, 2), (AlertClass.med, 5)]) = Except.ok c
        ∧ (∀ cr ∈ [(AlertClass.min, (2 : ℚ)), (AlertClass.med, 5)],
            cr.2 ≤ l → cr.1.rank ≤ c.rank)
        ∧ ((∃ cr ∈ [(AlertClass.min, (2 : ℚ)), (AlertClass.med, 5)], cr.2 ≤ l) →
            ∃ cr ∈ [(AlertClass.min, (2 : ℚ)), (AlertClass.med, 5)], cr.2 ≤ l ∧ c = cr.1)
        ∧ (c = AlertClass.no ↔ ∀ cr ∈ [(AlertClass.min, (2 : ℚ)), (AlertClass.med, 5)],
            ¬ cr.2 ≤ l)) :=
  classify_alert_monotone_policy false [((2 : ℚ), (1 : ℚ)), (5, 1)]
    [(AlertClass.min, 2), (AlertClass.med, 5)] (1/2)
    (by simp [List.pairwise_cons, AlertClass.rank]; norm_num)
    (by simp)

/-! ## Event derivation (load.py, `Load.send_to_ibf_api`, lines 317-344)

Per station: scan lead times 1..7 for the first with `triggered`; if none,
scan for the first with an alert class other than `no`; a trigger event
whose lead time exceeds `trigger-on-lead-time` is downgraded to an alert. -/

inductive EventType where
  | trigger
  | alert
deriving DecidableEq, Repr

structure StationLeadTime where
  triggered : Bool
  alert_class : AlertClass
deriving DecidableEq, Repr

def deriveEvent (f : Nat → StationLeadTime) (trigger_on_lead_time : Nat) :
    Option (Nat × EventType) :=
  match (List.range' 1 7).find? (fun lt => (f lt).triggered) with
  | some lt =>
    if trigger_on_lead_time < lt then some (lt, EventType.alert)
    else some (lt, EventType.trigger)
  | none =>
    match (List.range' 1 7).find? (fun lt => decide ((f lt).alert_class ≠ AlertClass.no)) with
    | some lt => some (lt, EventType.alert)
    | none => none

theorem range17 : List.range' 1 7 = [1, 2, 3, 4, 5, 6, 7] := rfl

theorem find?_range17_eq_some (p : Nat → Bool) (lt0 : Nat) (h1 : 1 ≤ lt0) (h7 : lt0 ≤ 7)
    (hp : p lt0 = true) (hmin : ∀ k, 1 ≤ k → k < lt0 → p k = false) :
    (List.range' 1 7).find? p = some lt0 := by
  rw [range17]
  interval_cases lt0 <;> simp [List.find?, hp, hmin]

theorem find?_range17_eq_none (p : Nat → Bool)
    (h : ∀ k, 1 ≤ k → k ≤ 7 → p k = false) :
    (List.range' 1 7).find? p = none := by
  rw [range17, List.find?_eq_none]
  intro x hx
  fin_cases hx <;> simp [h]

/-! ## Claim C4 -/

/-- C4: if some lead time in 1..7 has `triggered`, the event lead time is
the earliest such and the event type is `trigger`, downgraded to `alert`
when that lead time exceeds `trigger-on-lead-time`; otherwise, if some
lead time has an alert class other than `no`, the event lead time is the
earliest such and the type is `alert`; otherwise there is no event. -/
theorem derive_event_spec (f : Nat → StationLeadTime) (tlt lt0 : Nat) :
    (1 ≤ lt0 → lt0 ≤ 7 → (f lt0).triggered = true →
      (∀ k, 1 ≤ k → k < lt0 → (f k).triggered = false) →
      deriveEvent f tlt
        = some (lt0, if lt0 ≤ tlt then EventType.trigger else EventType.alert))
    ∧ ((∀ k, 1 ≤ k → k ≤ 7 → (f k).triggered = false) →
      1 ≤ lt0 → lt0 ≤ 7 → (f lt0).alert_class ≠ AlertClass.no →
      (∀ k, 1 ≤ k → k < lt0 → (f k).alert_class = AlertClass.no) →
      deriveEvent f tlt = some (lt0, EventType.alert))
    ∧ ((∀ k, 1 ≤ k → k ≤ 7 →
        (f k).triggered = false ∧ (f k).alert_class = AlertClass.no) →
      deriveEvent f tlt = none) := by
  refine ⟨?_, ?_, ?_⟩
  · intro h1 h7 hp hmin
    unfold deriveEvent
    rw [find?_range17_eq_some (fun lt => (f lt).triggered) lt0 h1 h7 hp hmin]
    by_cases hle : lt0 ≤ tlt
    · have hnl : ¬ tlt < lt0 := by omega
      simp [hle, hnl]
    · have hl : tlt < lt0 := by omega
      simp [hle, hl]
  · intro hnone h1 h7 hp hmin
    unfold deriveEvent
    rw [find?_range17_eq_none (fun lt => (f lt).triggered) hnone]
    rw [find?_range17_eq_some (fun lt => decide ((f lt).alert_class ≠ AlertClass.no)) lt0
      h1 h7 (by simp [hp]) (fun k hk1 hk2 => by simp [hmin k hk1 hk2])]
  · intro hall
    unfold deriveEvent
    rw [find?_range17_eq_none (fun lt => (f lt).triggered)
      (fun k hk1 hk2 => (hall k hk1 hk2).1)]
    rw [find?_range17_eq_none (fun lt => decide ((f lt).alert_class ≠ AlertClass.no))
      (fun k hk1 hk2 => by simp [(hall k hk1 hk2).2])]

/-- Witness for C4: a station triggered first at lead time 3 with
`trigger-on-lead-time` 3 yields a trigger event at lead time 3. -/
theorem derive_event_spec_witness :
    deriveEvent
      (fun lt => if lt = 3 then ⟨true, AlertClass.med⟩ else ⟨false, AlertClass.no⟩) 3
      = some (3, EventType.trigger) := by
  have h := (derive_event_spec
    (fun lt => if lt = 3 then ⟨true, AlertClass.med⟩ else ⟨false, AlertClass.no⟩) 3 3).1
    (by decide) (by decide) (by decide)
    (fun k hk1 hk2 => by
      have : k ≠ 3 := by omega
      simp [this])
  simpa using h

/-! ## Claim C5: `alert_class_to_threshold` (load.py, lines 85-99)

The published severity.  At the call site (load.py lines 374-378) the
`triggered` argument is `event_type == "trigger"`. -/

def alert_class_to_threshold (alert_class : String) (triggered : Bool) :
    Except String ℚ :=
  if alert_class = "no" then .ok 0
  else if alert_class = "min" then .ok (3/10)
  else if alert_class = "med" then .ok (7/10)
  else if alert_class = "max" then
    if triggered then .ok 1 else .ok (7/10)
  else .error ("Invalid alert class " ++ alert_class)

/-- C5: the severity is a total function of the alert class and of whether
the event is a trigger: `no ↦ 0.0`, `min ↦ 0.3`, `med ↦ 0.7`,
`max ↦ 1.0` when triggered and `0.7` otherwise; any other alert class is
rejected with an error. -/
theorem alert_class_to_threshold_spec (triggered : Bool) (s : String) :
    alert_class_to_threshold "no" triggered = Except.ok 0
    ∧ alert_class_to_threshold "min" triggered = Except.ok (3/10)
    ∧ alert_class_to_threshold "med" triggered = Except.ok (7/10)
    ∧ alert_class_to_threshold "max" true = Except.ok 1
    ∧ alert_class_to_threshold "max" false = Except.ok (7/10)
    ∧ (s ≠ "no" → s ≠ "min" → s ≠ "med" → s ≠ "max" →
        alert_class_to_threshold s triggered
          = Except.error ("Invalid alert class " ++ s)) := by
  refine ⟨rfl, rfl, rfl, rfl, rfl, ?_⟩
  intro h1 h2 h3 h4
  simp [alert_class_to_threshold, h1, h2, h3, h4]

/-- Witness for C5: the unknown class `medium` is rejected. -/
theorem alert_class_to_threshold_spec_witness :
    alert_class_to_threshold "medium" true
      = Except.error ("Invalid alert class " ++ "medium") :=
  (alert_class_to_threshold_spec true "medium").2.2.2.2.2
    (by decide) (by decide) (by decide) (by decide)

/-! ## Claim C6: triggers per lead time (load.py, lines 396-420)

The body posted to `event/triggers-per-leadtime`: one entry per lead time
in `range(1, 8)`; `thresholdReached` is the flag the spec calls
`forecastTrigger`, `triggered` the flag it calls `forecastAlert`. -/

structure LeadTimeTriggerEntry where
  leadTime : Nat
  triggered : Bool
  thresholdReached : Bool
deriving DecidableEq, Repr

def triggersPerLeadTime (event_type : EventType) (lead_time_event : Nat) :
    List LeadTimeTriggerEntry :=
  (List.range' 1 7).map (fun lt =>
    { leadTime := lt
      triggered := (decide (event_type = EventType.trigger)
          || decide (event_type = EventType.alert)) && decide (lead_time_event ≤ lt)
      thresholdReached := decide (event_type = EventType.trigger)
          && decide (lead_time_event ≤ lt) })

/-- C6 counterexample: the emitted list has entries for lead times 1..7
only; for a trigger event at lead time 1, no entry covers lead time 0, so
the claim quantified over lead times 0..7 fails. -/
theorem triggersPerLeadTime_no_lead_time_zero :
    ¬ (∀ lt : Nat, lt ≤ 7 → ∃ e ∈ triggersPerLeadTime EventType.trigger 1,
        e.leadTime = lt
        ∧ (e.thresholdReached = true ↔ (EventType.trigger = EventType.trigger ∧ 1 ≤ lt))
        ∧ (e.triggered = true
            ↔ ((EventType.trigger = EventType.trigger
                ∨ EventType.trigger = EventType.alert) ∧ 1 ≤ lt))) := by
  decide

/-- C6 amended: for each lead time in 1..7 the emitted list has an entry
whose `thresholdReached` (the spec's `forecastTrigger`) holds iff the
event is a trigger at or before this lead time, and whose `triggered` (the
spec's `forecastAlert`) holds iff the event is a trigger or alert at or
before this lead time; both flags are monotone in the lead time. -/
theorem triggersPerLeadTime_spec (ty : EventType) (ev : Nat) (lt : Nat)
    (h1 : 1 ≤ lt) (h7 : lt ≤ 7) :
    (∃ e ∈ triggersPerLeadTime ty ev,
        e.leadTime = lt
        ∧ (e.thresholdReached = true ↔ (ty = EventType.trigger ∧ ev ≤ lt))
        ∧ (e.triggered = true
            ↔ ((ty = EventType.trigger ∨ ty = EventType.alert) ∧ ev ≤ lt)))
    ∧ (∀ e1 ∈ triggersPerLeadTime ty ev, ∀ e2 ∈ triggersPerLeadTime ty ev,
        e1.leadTime ≤ e2.leadTime →
        (e1.thresholdReached = true → e2.thresholdReached = true)
        ∧ (e1.triggered = true → e2.triggered = true)) := by
  constructor
  · refine ⟨_, List.mem_map_of_mem _ (List.mem_range'_1.mpr ⟨h1, by omega⟩), rfl, ?_, ?_⟩
    · simp [Bool.and_eq_true, decide_eq_true_eq]
    · simp [Bool.and_eq_true, Bool.or_eq_true, decide_eq_true_eq]
  · intro e1 he1 e2 he2 hle
    rw [triggersPerLeadTime, List.mem_map] at he1 he2
    obtain ⟨k1, hk1, rfl⟩ := he1
    obtain ⟨k2, hk2, rfl⟩ := he2
    simp only [Bool.and_eq_true, Bool.or_eq_true, decide_eq_true_eq] at *
    constructor
    · rintro ⟨hty, hev⟩
      exact ⟨hty, le_trans hev hle⟩
    · rintro ⟨hty, hev⟩
      exact ⟨hty, le_trans hev hle⟩

/-- Witness for the amended C6: a trigger event at lead time 2, inspected
at lead time 3. -/
theorem triggersPerLeadTime_spec_witness :
    (∃ e ∈ triggersPerLeadTime EventType.trigger 2,
        e.leadTime = 3
        ∧ (e.thresholdReached = true ↔ (EventType.trigger = EventType.trigger ∧ 2 ≤ 3))
        ∧ (e.triggered = true
            ↔ ((EventType.trigger = EventType.trigger
                ∨ EventType.trigger = EventType.alert) ∧ 2 ≤ 3)))
    ∧ (∀ e1 ∈ triggersPerLeadTime EventType.trigger 2,
        ∀ e2 ∈ triggersPerLeadTime EventType.trigger 2,
        e1.leadTime ≤ e2.leadTime →
        (e1.thresholdReached = true → e2.thresholdReached = true)
        ∧ (e1.triggered = true → e2.triggered = true)) :=
  triggersPerLeadTime_spec EventType.trigger 2 3 (by decide) (by decide)

/-! ## Empty flood-extent raster (forecast.py, lines 296-304 and 367-368)

`Forecast.__compute_flood_extent` reads the first global flood map, takes
`np.empty(flood_raster_data.shape)` as pixel data, copies the map's
metadata, sets `compress=lzw`, and writes the result as the `empty`
raster; when no admin unit is triggered at a lead time, that raster is
copied verbatim as the lead-time extent (`shutil.copy`).  `np.empty`
returns an uninitialized buffer: its contents are whatever the underlying
memory holds, modelled by an arbitrary function `mem`. -/

structure Raster where
  meta : String
  compress : String
  pixels : List ℚ
deriving DecidableEq, Repr

def npEmpty (shape : Nat) (mem : Nat → ℚ) : List ℚ :=
  (List.range shape).map mem

def makeEmptyRaster (globalMap : Raster) (mem : Nat → ℚ) : Raster :=
  { meta := globalMap.meta
    compress := "lzw"
    pixels := npEmpty globalMap.pixels.length mem }

def leadTimeExtentNoTrigger (empty : Raster) : Raster := empty

/-! ## Claim C8 -/

/-- C8 (code bug): the `empty` raster keeps the global map's metadata,
gets lzw compression, and is what a lead time with no triggered unit
emits — but its pixels are `np.empty`'s uninitialized buffer, not zeros:
with residual memory holding `1.0`, the single pixel of a one-pixel
global map is `1`, not `0`. -/
theorem empty_raster_not_all_zero :
    (makeEmptyRaster ⟨"globalMeta", "deflate", [5]⟩ (fun _ => 1)).meta = "globalMeta"
    ∧ (makeEmptyRaster ⟨"globalMeta", "deflate", [5]⟩ (fun _ => 1)).compress = "lzw"
    ∧ leadTimeExtentNoTrigger (makeEmptyRaster ⟨"globalMeta", "deflate", [5]⟩ (fun _ => 1))
        = makeEmptyRaster ⟨"globalMeta", "deflate", [5]⟩ (fun _ => 1)
    ∧ (makeEmptyRaster ⟨"globalMeta", "deflate", [5]⟩ (fun _ => 1)).pixels = [1]
    ∧ (makeEmptyRaster ⟨"globalMeta", "deflate", [5]⟩ (fun _ => 1)).pixels ≠ [0] := by
  refine ⟨rfl, rfl, rfl, ?_, ?_⟩
  · simp [makeEmptyRaster, npEmpty, List.range_succ]
  · simp [makeEmptyRaster, npEmpty, List.range_succ]

/-! ## Affected population (forecast.py, lines 459-480)

Per triggered unit: `pop_affected = int(gdf_aff_pop.loc[pcode, "sum"])`
with ValueError/TypeError/KeyError caught to 0, and
`pop_affected_perc = float(pop_affected / gdf_pop.loc[pcode, "sum"]) * 100.0`
with the same exceptions caught to 0.0.  A zonal sum is `none` when the
pcode row is absent (KeyError) or the sum is null (TypeError), both
caught.  ZeroDivisionError is not in the caught tuple: a present,
exactly-zero denominator is modelled as an uncaught error (with a float64
denominator the result would be `inf` instead; under neither semantics is
it `0.0`). -/

/-- Python `int()` on a float: truncation toward zero. -/
def pyInt (q : ℚ) : ℤ :=
  if 0 ≤ q then ⌊q⌋ else ⌈q⌉

def computePopAffected (affSum : Option ℚ) : ℤ :=
  match affSum with
  | some q => pyInt q
  | none => 0

structure ExposureResult where
  pop_affected : ℤ
  pop_affected_perc : ℚ
deriving DecidableEq, Repr

def computeExposure (affSum popSum : Option ℚ) : Except String ExposureResult :=
  match popSum with
  | none => .ok ⟨computePopAffected affSum, 0⟩
  | some d =>
    if d = 0 then .error "ZeroDivisionError"
    else .ok ⟨computePopAffected affSum, (computePopAffected affSum : ℚ) / d * 100⟩

/-! ## Claim C9 -/

/-- C9 counterexample: a triggered unit whose total-population sum is
missing but whose affected-population sum is 5 gets `pop_affected = 5`,
not 0 as the claim states (the percentage is 0.0); and a present
total-population sum of exactly 0 does not yield `0.0` but an uncaught
division error. -/
theorem pop_affected_not_zeroed :
    computeExposure (some 5) Option.none = Except.ok ⟨5, 0⟩
    ∧ ¬ (computeExposure (some 5) Option.none = Except.ok ⟨0, 0⟩)
    ∧ computeExposure (some 5) (some 0) = Except.error "ZeroDivisionError" := by
  have h5 : computePopAffected (some 5) = 5 := by
    simp [computePopAffected, pyInt]
  refine ⟨?_, ?_, ?_⟩
  · simp [computeExposure, h5]
  · simp [computeExposure, h5]
  · simp [computeExposure]

/-- C9 amended: `pop_affected` is the integer part of the
affected-population sum (0 when that sum is missing), independently of
the denominator; when the total-population sum is missing the percentage
is 0.0 and no error is raised; when the total population is present and
positive the percentage is `100 * pop_affected / total_population`. -/
theorem compute_exposure_spec (affSum popSum : Option ℚ) :
    (computeExposure affSum Option.none
        = Except.ok ⟨computePopAffected affSum, 0⟩)
    ∧ (∀ d : ℚ, popSum = some d → 0 < d →
        computeExposure affSum popSum
          = Except.ok ⟨computePopAffected affSum,
              (computePopAffected affSum : ℚ) / d * 100⟩)
    ∧ (affSum = Option.none → computePopAffected affSum = 0) := by
  refine ⟨rfl, ?_, ?_⟩
  · rintro d rfl hd
    simp [computeExposure, ne_of_gt hd]
  · rintro rfl
    rfl

/-- Witness for the amended C9: affected sum 5 over total population 10
gives 5 people affected and 50 percent. -/
theorem compute_exposure_spec_witness :
    computeExposure (some 5) (some 10)
      = Except.ok ⟨computePopAffected (some 5),
          (computePopAffected (some 5) : ℚ) / 10 * 100⟩ :=
  (compute_exposure_spec (some 5) (some 10)).2.1 10 rfl (by norm_num)

/-! ## Settings lookup (settings.py, `Settings.get_setting`, lines 28-43)

The YAML value universe is modelled by `PyVal`; `truthy` is Python
truthiness.  `get_setting` takes the value at the key if present at top
level, otherwise the last match found inside dict-valued entries and
inside the dicts of list-valued entries (in insertion order); if the
resolved value is falsy — including 0, 0.0, False, "", empty collections,
or nothing found — it raises
`ValueError(f"Setting {setting} not found ...")`, the same error in every
such case.  A non-dict element of a list-valued entry is an uncaught
AttributeError (`.keys()` on a non-dict). -/

inductive PyVal where
  | int (i : ℤ)
  | float (q : ℚ)
  | bool (b : Bool)
  | str (s : String)
  | list (xs : List PyVal)
  | dict (d : List (String × PyVal))
  | none

def truthy : PyVal → Bool
  | .int i => decide (i ≠ 0)
  | .float q => decide (q ≠ 0)
  | .bool b => b
  | .str s => decide (s ≠ "")
  | .list [] => false
  | .list (_ :: _) => true
  | .dict [] => false
  | .dict (_ :: _) => true
  | .none => false

def lookupStr (d : List (String × PyVal)) (k : String) : Option PyVal :=
  (d.find? (fun p => decide (p.1 = k))).map (fun p => p.2)

def scanListElems (setting : String) :
    List PyVal → Option PyVal → Except String (Option PyVal)
  | [], acc => .ok acc
  | .dict d :: rest, acc =>
    scanListElems setting rest
      (match lookupStr d setting with
       | some v => some v
       | none => acc)
  | _ :: rest, _ => .error "AttributeError"

def scanTop (setting : String) :
    List (String × PyVal) → Option PyVal → Except String (Option PyVal)
  | [], acc => .ok acc
  | (_, .dict d) :: rest, acc =>
    scanTop setting rest
      (match lookupStr d setting with
       | some v => some v
       | none => acc)
  | (_, .list xs) :: rest, acc =>
    match scanListElems setting xs acc with
    | .error e => .error e
    | .ok acc2 => scanTop setting rest acc2
  | _ :: rest, acc => scanTop setting rest acc

def get_setting (settings : List (String × PyVal)) (setting : String) :
    Except String PyVal :=
  let notFound : Except String PyVal :=
    .error ("Setting " ++ setting ++ " not found")
  match lookupStr settings setting with
  | some v => if truthy v then .ok v else notFound
  | none =>
    match scanTop setting settings Option.none with
    | .error e => .error e
    | .ok Option.none => notFound
    | .ok (some v) => if truthy v then .ok v else notFound

/-! ## Claim C10 -/

/-- C10: a setting key whose value is falsy (0, 0.0, False, empty string
or empty collection) makes `get_setting` raise exactly the ValueError it
raises for an absent setting — whether the key is found at top level or
nested — so a configured `minimum_flood_depth` of 0 cannot be
retrieved. -/
theorem get_setting_falsy_raises (settings : List (String × PyVal))
    (setting : String) (v : PyVal) :
    (lookupStr settings setting = some v → truthy v = false →
      get_setting settings setting
        = Except.error ("Setting " ++ setting ++ " not found"))
    ∧ (lookupStr settings setting = Option.none →
       scanTop setting settings Option.none = Except.ok (some v) →
       truthy v = false →
      get_setting settings setting
        = Except.error ("Setting " ++ setting ++ " not found"))
    ∧ (lookupStr settings setting = Option.none →
       scanTop setting settings Option.none = Except.ok Option.none →
      get_setting settings setting
        = Except.error ("Setting " ++ setting ++ " not found")) := by
  refine ⟨?_, ?_, ?_⟩
  · intro hlk hf
    simp [get_setting, hlk, hf]
  · intro hlk hscan hf
    simp [get_setting, hlk, hscan, hf]
  · intro hlk hscan
    simp [get_setting, hlk, hscan]

/-- Witness for C10: a configuration with `minimum_flood_depth: 0`
(the spec's documented default) raises the not-found ValueError. -/
theorem get_setting_falsy_raises_witness :
    get_setting [("minimum_flood_depth", PyVal.int 0)] "minimum_flood_depth"
      = Except.error ("Setting " ++ "minimum_flood_depth" ++ " not found") :=
  (get_setting_falsy_raises [("minimum_flood_depth", PyVal.int 0)]
      "minimum_flood_depth" (PyVal.int 0)).1
    (by simp [lookupStr, List.find?]) (by simp [truthy])

end FloodPipeline
